import Mathlib

/-!
Verification of the gym-membership management application
(source: `server.js` and `App.js`) against its natural-language
specification.  The JavaScript code is shallowly embedded: JSON/JS
values are modelled by `JsVal`, JavaScript `Date` calendar arithmetic
(`setMonth` / `setFullYear` with day rollover) by `JsDate.addMonths` /
`JsDate.addYears`, the Mongo-backed collections by lists of documents,
and each Express route handler by a pure Lean function from the store
and the request to the new store and the response.
-/

namespace Gym

/-- A JavaScript value as it appears in a JSON request body or a stored
document field.  `undef` models an absent field (`undefined`). -/
inductive JsVal where
  | undef : JsVal
  | null : JsVal
  | vbool : Bool → JsVal
  | vnum : Int → JsVal
  | vstr : String → JsVal
deriving DecidableEq, Repr

/-- JavaScript truthiness: `undefined`, `null`, `false`, `0` and the
empty string are falsy; everything else is truthy.  This is the test
performed by `if (name) memberFields.name = name` in the PUT handler. -/
def JsVal.truthy : JsVal → Bool
  | .undef => false
  | .null => false
  | .vbool b => b
  | .vnum n => n ≠ 0
  | .vstr s => s ≠ ""

/-! ## Calendar dates and JavaScript date arithmetic

`routes/payments.js` computes the membership window with
`endDate.setMonth(endDate.getMonth() + k)` and
`endDate.setFullYear(endDate.getFullYear() + 1)`.  JavaScript months
are 0-based; setting a month (or year) keeps the day-of-month and lets
an out-of-range day roll over into the following month
(e.g. Jan 31 + 1 month = Feb 31 = Mar 2 or Mar 3). -/

/-- A calendar date: 0-based month, 1-based day of month. -/
structure JsDate where
  year : Nat
  month : Nat
  day : Nat
deriving DecidableEq, Repr

/-- Gregorian leap year, as implemented by the JavaScript `Date` object. -/
def isLeap (y : Nat) : Bool :=
  y % 4 == 0 && (y % 100 != 0 || y % 400 == 0)

/-- Number of days of month `m` (0-based) of year `y`. -/
def daysInMonth (y m : Nat) : Nat :=
  if m = 1 then (if isLeap y then 29 else 28)
  else if m = 3 ∨ m = 5 ∨ m = 8 ∨ m = 10 then 30
  else 31

/-- A well-formed calendar date. -/
def JsDate.Valid (d : JsDate) : Prop :=
  d.month ≤ 11 ∧ 1 ≤ d.day ∧ d.day ≤ daysInMonth d.year d.month

instance (d : JsDate) : Decidable d.Valid := by
  unfold JsDate.Valid; infer_instance

/-- JavaScript `date.setMonth(date.getMonth() + k)` on a valid date: carry whole
months into the year, then roll an out-of-range day-of-month into the
next month (a valid day overflows by at most 3 days, so one roll
suffices, exactly as the JavaScript normalisation behaves). -/
def JsDate.addMonths (k : Nat) (d : JsDate) : JsDate :=
  let t := d.year * 12 + d.month + k
  if d.day ≤ daysInMonth (t / 12) (t % 12) then
    ⟨t / 12, t % 12, d.day⟩
  else
    ⟨(t + 1) / 12, (t + 1) % 12, d.day - daysInMonth (t / 12) (t % 12)⟩

/-- JavaScript `date.setFullYear(date.getFullYear() + k)`: keep month and day,
rolling Feb 29 of a leap year into Mar 1 of a non-leap target year. -/
def JsDate.addYears (k : Nat) (d : JsDate) : JsDate :=
  if d.day ≤ daysInMonth (d.year + k) d.month then
    ⟨d.year + k, d.month, d.day⟩
  else
    let t := (d.year + k) * 12 + d.month + 1
    ⟨t / 12, t % 12, d.day - daysInMonth (d.year + k) d.month⟩

/-- Strict chronological order on calendar dates (lexicographic on
year, month, day — which is chronological order for valid dates). -/
def JsDate.lt (a b : JsDate) : Prop :=
  a.year < b.year ∨ (a.year = b.year ∧
    (a.month < b.month ∨ (a.month = b.month ∧ a.day < b.day)))

instance (a b : JsDate) : Decidable (JsDate.lt a b) := by
  unfold JsDate.lt; infer_instance

/-- Absolute month index of a date. -/
def JsDate.monthIndex (d : JsDate) : Nat := d.year * 12 + d.month

/-! ## Membership plans and the payment-window computation -/

/-- The membership plans accepted by the application. -/
inductive Plan where
  | monthly : Plan
  | quarterly : Plan
  | yearly : Plan
deriving DecidableEq, Repr

/-- The string the client sends for a plan (the `membership` field). -/
def Plan.toStr : Plan → String
  | .monthly => "monthly"
  | .quarterly => "quarterly"
  | .yearly => "yearly"

/-- A membership window. -/
structure Window where
  startDate : JsDate
  endDate : JsDate
deriving DecidableEq, Repr

/-- The end date computed by the dispatch in `routes/payments.js`
lines 358-364: `monthly` adds one month, `quarterly` three months,
`yearly` one year (JavaScript `setMonth`/`setFullYear` semantics);
an unrecognised membership string leaves `endDate = new Date()`. -/
def planEndDate (membership : String) (now : JsDate) : JsDate :=
  if membership = "monthly" then JsDate.addMonths 1 now
  else if membership = "quarterly" then JsDate.addMonths 3 now
  else if membership = "yearly" then JsDate.addYears 1 now
  else now

/-- The function `computeWindow(plan, referenceStart)`: the membership-service
window computation embedded from the date calculation of the
`POST /verify` handler (`startDate = new Date(); endDate = new Date();`
followed by the plan dispatch). -/
def computeWindow (p : Plan) (d : JsDate) : Window :=
  ⟨d, planEndDate p.toStr d⟩

/-! ## Days remaining (UserDashboard, `App.js`)

`getDaysRemaining` subtracts two `Date` values, giving a difference in
milliseconds, divides by `1000 * 60 * 60 * 24`, applies `Math.ceil`,
and clamps negative results to 0.  Instants are modelled as integer
millisecond timestamps and the floating-point division as exact
rational division (timestamps are well within the exactly-representable
double range). -/

/-- Milliseconds per day, `1000 * 60 * 60 * 24`. -/
def msPerDay : ℤ := 1000 * 60 * 60 * 24

/-- The dashboard function `getDaysRemaining`: timestamps in
milliseconds, `Math.ceil` of the difference in days, clamped to 0. -/
def getDaysRemaining (endDate now : ℤ) : ℤ :=
  let diffTime : ℤ := endDate - now
  let diffDays : ℤ := ⌈(diffTime : ℚ) / (msPerDay : ℚ)⌉
  if diffDays > 0 then diffDays else 0

/-! ## Member directory (`routes/members.js`)

Member documents are stored in a list; document fields hold `JsVal`s
(as Mongo documents hold BSON values); `_id` is a separate opaque
string.  Each handler is a function from the store and the request to
the new store and an HTTP-level outcome. -/

/-- A stored account document (the `User` model).  `role` is `"member"`
or `"admin"`; every field the PUT handler can touch is a `JsVal`. -/
structure MemberDoc where
  id : String
  name : JsVal
  email : JsVal
  password : JsVal
  phone : JsVal
  role : JsVal
  membershipType : JsVal
  startDate : JsVal
  endDate : JsVal
  status : JsVal
deriving DecidableEq, Repr

/-- Lookup `User.findById`: the document with the given `_id`, if any. -/
def findById (store : List MemberDoc) (id : String) : Option MemberDoc :=
  store.find? (fun d => d.id = id)

/-- Lookup by email, as in the duplicate check: some document (of any role) with the
given email, if any. -/
def findOneByEmail (store : List MemberDoc) (email : JsVal) : Option MemberDoc :=
  store.find? (fun d => d.email = email)

/-- Outcome of a member-directory request: the HTTP error responses the
handlers produce, or success carrying the response body where one
matters. -/
inductive DirOutcome where
  | ok : Option MemberDoc → DirOutcome
  | forbiddenErr : DirOutcome
  | notFoundErr : DirOutcome
  | conflictErr : DirOutcome
deriving DecidableEq, Repr

/-- The identity extracted from the bearer token (`req.user`). -/
structure Requester where
  id : String
  role : String
deriving DecidableEq, Repr

/-- The select-minus-password projection: the credential is excluded. -/
def stripPassword (d : MemberDoc) : MemberDoc :=
  { d with password := JsVal.undef }

/-- Handler of GET /members/:id — forbidden unless the requester is admin or asks
for their own id; 404 when the id resolves to no document; otherwise
the document without its password. -/
def getMember (store : List MemberDoc) (requester : Requester)
    (id : String) : DirOutcome :=
  if requester.role ≠ "admin" ∧ requester.id ≠ id then
    DirOutcome.forbiddenErr
  else
    match findById store id with
    | none => DirOutcome.notFoundErr
    | some m => DirOutcome.ok (some (stripPassword m))

/-- The body of `POST /members`. -/
structure CreateBody where
  name : JsVal
  email : JsVal
  phone : JsVal
  membershipType : JsVal
  startDate : JsVal
  endDate : JsVal
deriving DecidableEq, Repr

/-- The document `new User({...})` builds in the POST handler: role
`"member"`, the fixed placeholder password `"123456"`, membership
fields from the body; `freshId` is the `_id` Mongo assigns and
`status` is left to its schema default. -/
def newMemberDoc (body : CreateBody) (freshId : String) : MemberDoc :=
  { id := freshId
    name := body.name
    email := body.email
    password := JsVal.vstr "123456"
    phone := body.phone
    role := JsVal.vstr "member"
    membershipType := body.membershipType
    startDate := body.startDate
    endDate := body.endDate
    status := JsVal.vstr "active" }

/-- Handler of POST /members (admin-gated upstream): rejects a duplicate email
with 400, otherwise appends the new member document. -/
def createMember (store : List MemberDoc) (body : CreateBody)
    (freshId : String) : List MemberDoc × DirOutcome :=
  match findOneByEmail store body.email with
  | some _ => (store, DirOutcome.conflictErr)
  | none => (store ++ [newMemberDoc body freshId], DirOutcome.ok none)

/-- The body of `PUT /members/:id`: a destructured field is `undef`
when the client did not send it. -/
structure UpdateBody where
  name : JsVal
  email : JsVal
  phone : JsVal
  membershipType : JsVal
  startDate : JsVal
  endDate : JsVal
  status : JsVal
deriving DecidableEq, Repr

/-- The `memberFields` / `$set` step of the PUT handler: a field enters
the update exactly when its value is truthy; every other field of the
document keeps its prior value. -/
def applyPatch (body : UpdateBody) (m : MemberDoc) : MemberDoc :=
  { m with
    name := if body.name.truthy then body.name else m.name
    email := if body.email.truthy then body.email else m.email
    phone := if body.phone.truthy then body.phone else m.phone
    membershipType :=
      if body.membershipType.truthy then body.membershipType
      else m.membershipType
    startDate := if body.startDate.truthy then body.startDate else m.startDate
    endDate := if body.endDate.truthy then body.endDate else m.endDate
    status := if body.status.truthy then body.status else m.status }

/-- Handler of PUT /members/:id (admin-gated upstream): 404 when the id is
unknown, otherwise `$set` of the truthy-supplied fields, returning the
updated document without its password. -/
def updateMember (store : List MemberDoc) (id : String)
    (body : UpdateBody) : List MemberDoc × DirOutcome :=
  match findById store id with
  | none => (store, DirOutcome.notFoundErr)
  | some _ =>
      let store' := store.map (fun d => if d.id = id then applyPatch body d else d)
      match findById store' id with
      | none => (store', DirOutcome.notFoundErr)
      | some m' => (store', DirOutcome.ok (some (stripPassword m')))

/-- Handler of DELETE /members/:id (admin-gated upstream): 404 when the id is
unknown, otherwise `findByIdAndDelete` removes the document. -/
def deleteMember (store : List MemberDoc) (id : String) :
    List MemberDoc × DirOutcome :=
  match findById store id with
  | none => (store, DirOutcome.notFoundErr)
  | some _ => (store.filter (fun d => d.id ≠ id), DirOutcome.ok none)

/-! ## Payment verification (`routes/payments.js`, `POST /verify`)

The handler reads `razorpayPaymentId`, `razorpayOrderId`,
`razorpaySignature`, `membership` and `amount` from the body, computes
the window from the current moment, saves a `completed` Payment owned
by the authenticated user, and applies `findByIdAndUpdate` to that
membership fields.  It performs no signature verification (the code
comment notes that it should) and never inspects whether the user id
resolves to a document. -/

/-- A stored Payment document, with the fields the verify handler sets. -/
structure PaymentDoc where
  userId : String
  amount : ℚ
  paymentType : String
  paymentMethod : String
  razorpayPaymentId : JsVal
  razorpayOrderId : JsVal
  membership : String
  status : String
  startDate : JsDate
  endDate : JsDate
deriving DecidableEq, Repr

/-- The body of `POST /verify`. -/
structure VerifyBody where
  razorpayPaymentId : JsVal
  razorpayOrderId : JsVal
  razorpaySignature : JsVal
  membership : String
  amount : ℚ
deriving DecidableEq, Repr

/-- The two collections the verify handler touches. -/
structure PayState where
  users : List MemberDoc
  payments : List PaymentDoc
deriving DecidableEq, Repr

/-- Outcome of the verify request (`{ success: true }` on the only
path the handler has). -/
inductive VerifyOutcome where
  | success : VerifyOutcome
  | notFoundErr : VerifyOutcome
  | gatewayVerificationErr : VerifyOutcome
deriving DecidableEq, Repr

/-- Encode a `JsDate` as the `JsVal` stored in the date field of a user
field (dates in documents are compared only for equality here). -/
def JsDate.toVal (d : JsDate) : JsVal :=
  JsVal.vstr (toString d.year ++ "-" ++ toString d.month ++ "-" ++ toString d.day)

/-- The `User.findByIdAndUpdate(req.user.id, {...})` of the verify
handler: sets membershipType, startDate, endDate and an active status on
the matching document; a no-op when no document matches. -/
def applyMembership (uid : String) (membership : String)
    (startDate endDate : JsDate) (store : List MemberDoc) : List MemberDoc :=
  store.map (fun d =>
    if d.id = uid then
      { d with
        membershipType := JsVal.vstr membership
        startDate := startDate.toVal
        endDate := endDate.toVal
        status := JsVal.vstr "active" }
    else d)

/-- Handler of POST /verify, as written in the source: computes the window from
`now`, appends a `completed` Payment for the authenticated user `uid`,
updates the membership fields of that user, and reports success.  No
signature check and no existence check occur on any path. -/
def verifyPayment (st : PayState) (uid : String) (body : VerifyBody)
    (now : JsDate) : PayState × VerifyOutcome :=
  let startDate := now
  let endDate := planEndDate body.membership now
  let payment : PaymentDoc :=
    { userId := uid
      amount := body.amount / 100
      paymentType := "membership"
      paymentMethod := "card"
      razorpayPaymentId := body.razorpayPaymentId
      razorpayOrderId := body.razorpayOrderId
      membership := body.membership
      status := "completed"
      startDate := startDate
      endDate := endDate }
  let users' := applyMembership uid body.membership startDate endDate st.users
  (⟨users', st.payments ++ [payment]⟩, VerifyOutcome.success)

/-- A concrete moment for exercising the verify handler: Feb 29, 2024. -/
def sampleNow : JsDate := ⟨2024, 1, 29⟩

/-- A concrete verify body whose signature is garbage: no processor
would confirm it. -/
def badSigBody : VerifyBody :=
  { razorpayPaymentId := JsVal.vstr "pay_fabricated"
    razorpayOrderId := JsVal.vstr "order_fabricated"
    razorpaySignature := JsVal.vstr "not-a-valid-signature"
    membership := "yearly"
    amount := 50000 }

/-- A concrete PUT body that supplies only `membershipType`. -/
def patchYearly : UpdateBody :=
  { name := JsVal.undef
    email := JsVal.undef
    phone := JsVal.undef
    membershipType := JsVal.vstr "yearly"
    startDate := JsVal.undef
    endDate := JsVal.undef
    status := JsVal.undef }

/-- A concrete PUT body whose supplied values are all falsy: an empty
string, the number 0, `false` and `null`. -/
def falsyPatch : UpdateBody :=
  { name := JsVal.vstr ""
    email := JsVal.null
    phone := JsVal.vnum 0
    membershipType := JsVal.undef
    startDate := JsVal.undef
    endDate := JsVal.undef
    status := JsVal.vbool false }

/-- A concrete member document used to exercise the handlers. -/
def sampleMember : MemberDoc :=
  { id := "u1"
    name := JsVal.vstr "Asha"
    email := JsVal.vstr "a@x.com"
    password := JsVal.vstr "123456"
    phone := JsVal.vstr "9900000000"
    role := JsVal.vstr "member"
    membershipType := JsVal.vstr "monthly"
    startDate := JsVal.vstr "2024-03-01"
    endDate := JsVal.vstr "2024-04-01"
    status := JsVal.vstr "active" }

/-! ## Helper lemmas -/

/-- A date that is earlier in absolute month index is chronologically
earlier, whatever the days are (months are 0-based, hence `≤ 11`). -/
theorem JsDate.lt_of_monthIndex_lt {a b : JsDate} (ha : a.month ≤ 11)
    (hb : b.month ≤ 11) (h : a.monthIndex < b.monthIndex) :
    JsDate.lt a b := by
  unfold JsDate.monthIndex at h
  unfold JsDate.lt
  omega

/-- Adding at least one month by JavaScript `setMonth` semantics yields
a strictly later date. -/
theorem JsDate.lt_addMonths (k : Nat) (hk : 1 ≤ k) (d : JsDate)
    (hd : d.month ≤ 11) : JsDate.lt d (JsDate.addMonths k d) := by
  simp only [JsDate.addMonths]
  split
  · exact JsDate.lt_of_monthIndex_lt hd (by simp [JsDate.monthIndex]; omega)
      (by simp [JsDate.monthIndex]; omega)
  · exact JsDate.lt_of_monthIndex_lt hd (by simp [JsDate.monthIndex]; omega)
      (by simp [JsDate.monthIndex]; omega)

/-- Adding at least one year by JavaScript `setFullYear` semantics
yields a strictly later date. -/
theorem JsDate.lt_addYears (k : Nat) (hk : 1 ≤ k) (d : JsDate)
    (hd : d.month ≤ 11) : JsDate.lt d (JsDate.addYears k d) := by
  simp only [JsDate.addYears]
  split
  · unfold JsDate.lt
    left
    show d.year < d.year + k
    omega
  · exact JsDate.lt_of_monthIndex_lt hd (by simp [JsDate.monthIndex]; omega)
      (by simp [JsDate.monthIndex]; omega)

/-- A store in which no document carries email `e` has no
`findOne({ email })` hit. -/
theorem findOneByEmail_eq_none {store : List MemberDoc} {e : JsVal}
    (h : ∀ d ∈ store, d.email ≠ e) : findOneByEmail store e = none := by
  simp only [findOneByEmail, List.find?_eq_none, decide_eq_true_eq]
  exact h

/-- Appending a document with email `e` to a store free of `e` makes it
the `findOne({ email })` hit. -/
theorem findOneByEmail_append_single {store : List MemberDoc} {e : JsVal}
    (h : ∀ d ∈ store, d.email ≠ e) (doc : MemberDoc) (hd : doc.email = e) :
    findOneByEmail (store ++ [doc]) e = some doc := by
  induction store with
  | nil =>
      simp only [findOneByEmail, List.nil_append]
      exact List.find?_cons_of_pos _ (by simp [hd])
  | cons a l ih =>
      have ha : a.email ≠ e := h a (by simp)
      have hrec := ih (fun d hdl => h d (by simp [hdl]))
      simp only [findOneByEmail, List.cons_append] at hrec ⊢
      rw [List.find?_cons_of_neg _ (by simp [ha])]
      exact hrec

/-- After filtering out the documents with `_id = id`, `findById id`
finds nothing. -/
theorem findById_filter_ne (store : List MemberDoc) (id : String) :
    findById (store.filter (fun d => d.id ≠ id)) id = none := by
  simp only [findById, List.find?_eq_none, decide_eq_true_eq]
  intro d hd
  have h2 := (List.mem_filter.mp hd).2
  simp only [ne_eq, decide_not, Bool.not_eq_eq_eq_not, Bool.not_true,
    decide_eq_false_iff_not] at h2
  exact h2

/-- An id-preserving per-document update commutes with `findById`. -/
theorem findById_map_update (store : List MemberDoc) (id : String)
    (f : MemberDoc → MemberDoc) (hf : ∀ d, (f d).id = d.id) {m : MemberDoc}
    (hm : findById store id = some m) :
    findById (store.map (fun d => if d.id = id then f d else d)) id =
      some (f m) := by
  induction store with
  | nil => simp [findById] at hm
  | cons a l ih =>
      by_cases ha : a.id = id
      · simp only [findById] at hm
        rw [List.find?_cons_of_pos _ (by simp [ha])] at hm
        injection hm with hm
        subst hm
        simp only [findById, List.map_cons, if_pos ha]
        exact List.find?_cons_of_pos _ (by simp [hf, ha])
      · simp only [findById] at hm ⊢
        rw [List.find?_cons_of_neg _ (by simp [ha])] at hm
        simp only [List.map_cons, if_neg ha]
        rw [List.find?_cons_of_neg _ (by simp [ha])]
        exact ih hm

/-! ## Claims -/

/-- C4: `computeWindow` is a pure function whose start date is the
reference date, whose end date is strictly later, and whose end date is
obtained by adding 1 calendar month, 3 calendar months or 1 calendar
year respectively, with JavaScript day-rollover semantics on
month-length overflow. -/
theorem computeWindow_correct (p : Plan) (d : JsDate) (hd : d.Valid) :
    (computeWindow p d).startDate = d ∧
    JsDate.lt d (computeWindow p d).endDate ∧
    (computeWindow p d).endDate =
      (match p with
       | Plan.monthly => JsDate.addMonths 1 d
       | Plan.quarterly => JsDate.addMonths 3 d
       | Plan.yearly => JsDate.addYears 1 d) := by
  obtain ⟨hm, -, -⟩ := hd
  refine ⟨rfl, ?_, ?_⟩ <;> cases p <;>
    simp [computeWindow, planEndDate, Plan.toStr]
  · exact JsDate.lt_addMonths 1 (by omega) d hm
  · exact JsDate.lt_addMonths 3 (by omega) d hm
  · exact JsDate.lt_addYears 1 (by omega) d hm

/-- Witness for C4 at the month-length-overflow date Jan 31, 2024. -/
theorem computeWindow_correct_witness :
    JsDate.Valid ⟨2024, 0, 31⟩ ∧
    ((computeWindow Plan.monthly ⟨2024, 0, 31⟩).startDate = ⟨2024, 0, 31⟩ ∧
     JsDate.lt ⟨2024, 0, 31⟩ (computeWindow Plan.monthly ⟨2024, 0, 31⟩).endDate ∧
     (computeWindow Plan.monthly ⟨2024, 0, 31⟩).endDate =
       JsDate.addMonths 1 ⟨2024, 0, 31⟩) :=
  ⟨by decide, computeWindow_correct Plan.monthly ⟨2024, 0, 31⟩ (by decide)⟩

/-- The clamped-ceiling form of `getDaysRemaining`. -/
theorem getDaysRemaining_eq (e n : ℤ) :
    getDaysRemaining e n = max 0 (⌈((e - n : ℤ) : ℚ) / (msPerDay : ℚ)⌉) := by
  simp only [getDaysRemaining]
  split
  · rename_i h
    exact (max_eq_right (by omega)).symm
  · rename_i h
    exact (max_eq_left (by omega)).symm

/-- C5: `getDaysRemaining endDate now` is the ceiling of
`endDate − now` in whole days clamped at 0, hence an integer ≥ 0; it is
0 whenever `now ≥ endDate`, and it is monotonically non-increasing as
`now` advances with `endDate` fixed. -/
theorem getDaysRemaining_correct (endDate now : ℤ) :
    getDaysRemaining endDate now =
      max 0 (⌈((endDate - now : ℤ) : ℚ) / (msPerDay : ℚ)⌉) ∧
    0 ≤ getDaysRemaining endDate now ∧
    (endDate ≤ now → getDaysRemaining endDate now = 0) ∧
    (∀ later : ℤ, now ≤ later →
      getDaysRemaining endDate later ≤ getDaysRemaining endDate now) := by
  refine ⟨getDaysRemaining_eq endDate now, ?_, ?_, ?_⟩
  · rw [getDaysRemaining_eq]
    exact le_max_left 0 _
  · intro h
    rw [getDaysRemaining_eq]
    have h1 : ((endDate - now : ℤ) : ℚ) ≤ 0 := by
      exact_mod_cast sub_nonpos.mpr h
    have h2 : ((endDate - now : ℤ) : ℚ) / (msPerDay : ℚ) ≤ 0 :=
      div_nonpos_of_nonpos_of_nonneg h1 (by norm_num [msPerDay])
    have h3 : ⌈((endDate - now : ℤ) : ℚ) / (msPerDay : ℚ)⌉ ≤ 0 :=
      Int.ceil_le.mpr (by exact_mod_cast h2)
    exact max_eq_left h3
  · intro later hle
    rw [getDaysRemaining_eq, getDaysRemaining_eq]
    refine max_le_max le_rfl (Int.ceil_le_ceil ?_)
    have h1 : ((endDate - later : ℤ) : ℚ) ≤ ((endDate - now : ℤ) : ℚ) := by
      exact_mod_cast sub_le_sub_left hle endDate
    gcongr
    norm_num [msPerDay]

/-- Witness for C5: an expired membership reports 0 days, and advancing
`now` by a day does not increase the report. -/
theorem getDaysRemaining_correct_witness :
    getDaysRemaining 5 7 = 0 ∧
    getDaysRemaining 172800001 86400000 ≤ getDaysRemaining 172800001 0 :=
  ⟨(getDaysRemaining_correct 5 7).2.2.1 (by norm_num),
   (getDaysRemaining_correct 172800001 0).2.2.2 86400000 (by norm_num)⟩

/-- C6: with a fresh email the first create succeeds; a second create
with the same email fails with the duplicate-email conflict and writes
nothing, leaving exactly one account with that email; and the
duplicate check fires against any existing account regardless of its
role. -/
theorem createMember_email_unique (store : List MemberDoc)
    (b1 b2 : CreateBody) (id1 id2 : String)
    (hfresh : ∀ d ∈ store, d.email ≠ b1.email)
    (hsame : b2.email = b1.email) :
    (createMember store b1 id1).2 = DirOutcome.ok none ∧
    (createMember (createMember store b1 id1).1 b2 id2).2 =
      DirOutcome.conflictErr ∧
    (createMember (createMember store b1 id1).1 b2 id2).1 =
      (createMember store b1 id1).1 ∧
    ((createMember store b1 id1).1.filter
      (fun d => d.email = b1.email)).length = 1 ∧
    (∀ (store' : List MemberDoc) (b : CreateBody) (fid : String)
       (d : MemberDoc), d ∈ store' → d.email = b.email →
      (createMember store' b fid).2 = DirOutcome.conflictErr ∧
      (createMember store' b fid).1 = store') := by
  have hdoc : (newMemberDoc b1 id1).email = b1.email := rfl
  have h1 : createMember store b1 id1 =
      (store ++ [newMemberDoc b1 id1], DirOutcome.ok none) := by
    simp [createMember, findOneByEmail_eq_none hfresh]
  have h2 : findOneByEmail (store ++ [newMemberDoc b1 id1]) b2.email =
      some (newMemberDoc b1 id1) := by
    rw [hsame]
    exact findOneByEmail_append_single hfresh _ hdoc
  refine ⟨by rw [h1], ?_, ?_, ?_, ?_⟩
  · rw [h1]
    simp [createMember, h2]
  · rw [h1]
    simp [createMember, h2]
  · rw [h1]
    simp only [List.filter_append]
    have hnil : store.filter (fun d => d.email = b1.email) = [] := by
      simp only [List.filter_eq_nil_iff, decide_eq_true_eq]
      exact hfresh
    rw [hnil]
    simp [hdoc]
  · intro store' b fid d hd hde
    have hs : (store'.find? (fun x => x.email = b.email)).isSome :=
      List.find?_isSome.mpr ⟨d, hd, by simp [hde]⟩
    obtain ⟨w, hw⟩ := Option.isSome_iff_exists.mp hs
    have hw' : findOneByEmail store' b.email = some w := hw
    constructor
    · simp [createMember, hw']
    · simp [createMember, hw']

/-- Witness for C6 at a concrete store and bodies. -/
theorem createMember_email_unique_witness :
    (createMember [] ⟨JsVal.vstr "Asha", JsVal.vstr "a@x.com",
        JsVal.vstr "99", JsVal.vstr "monthly", JsVal.vstr "2024-03-01",
        JsVal.vstr "2024-04-01"⟩ "u1").2 = DirOutcome.ok none ∧
    (createMember (createMember [] ⟨JsVal.vstr "Asha", JsVal.vstr "a@x.com",
        JsVal.vstr "99", JsVal.vstr "monthly", JsVal.vstr "2024-03-01",
        JsVal.vstr "2024-04-01"⟩ "u1").1
      ⟨JsVal.vstr "Bela", JsVal.vstr "a@x.com", JsVal.vstr "88",
        JsVal.vstr "yearly", JsVal.vstr "2024-03-02",
        JsVal.vstr "2025-03-02"⟩ "u2").2 = DirOutcome.conflictErr := by
  have h := createMember_email_unique []
    ⟨JsVal.vstr "Asha", JsVal.vstr "a@x.com", JsVal.vstr "99",
      JsVal.vstr "monthly", JsVal.vstr "2024-03-01", JsVal.vstr "2024-04-01"⟩
    ⟨JsVal.vstr "Bela", JsVal.vstr "a@x.com", JsVal.vstr "88",
      JsVal.vstr "yearly", JsVal.vstr "2024-03-02", JsVal.vstr "2025-03-02"⟩
    "u1" "u2" (by simp) rfl
  exact ⟨h.1, h.2.1⟩

/-- C7: `GET /members/:id` is forbidden exactly when the requester is
neither admin nor the requested member; a requester asking for their
own id succeeds whatever their role; an authorized request for an
unknown id is a 404. -/
theorem getMember_access_control (store : List MemberDoc)
    (requester : Requester) (id : String) :
    ((requester.role ≠ "admin" ∧ requester.id ≠ id) →
      getMember store requester id = DirOutcome.forbiddenErr) ∧
    (requester.id = id → ∀ m, findById store id = some m →
      getMember store requester id = DirOutcome.ok (some (stripPassword m))) ∧
    ((requester.role = "admin" ∨ requester.id = id) →
      findById store id = none →
      getMember store requester id = DirOutcome.notFoundErr) := by
  unfold getMember
  refine ⟨?_, ?_, ?_⟩
  · intro h
    rw [if_pos h]
  · intro hid m hm
    rw [if_neg (by tauto), hm]
  · intro hauth hm
    rw [if_neg (by tauto), hm]

/-- Witness for C7: a member reading a stranger is forbidden, reading
themselves succeeds, and an admin reading an unknown id gets a 404. -/
theorem getMember_access_control_witness :
    getMember [sampleMember] ⟨"u2", "member"⟩ "u1" =
      DirOutcome.forbiddenErr ∧
    getMember [sampleMember] ⟨"u1", "member"⟩ "u1" =
      DirOutcome.ok (some (stripPassword sampleMember)) ∧
    getMember [sampleMember] ⟨"adm", "admin"⟩ "zz" =
      DirOutcome.notFoundErr :=
  ⟨(getMember_access_control [sampleMember] ⟨"u2", "member"⟩ "u1").1
      (by decide),
   (getMember_access_control [sampleMember] ⟨"u1", "member"⟩ "u1").2.1
      rfl sampleMember (by decide),
   (getMember_access_control [sampleMember] ⟨"adm", "admin"⟩ "zz").2.2
      (Or.inl rfl) (by decide)⟩

/-- A truthiness-gated field update keeps the old value when the
submitted value is falsy, and can never turn a truthy stored value into
a falsy one. -/
theorem truthyPatch_frame (b old : JsVal) :
    (b.truthy = false → (if b.truthy then b else old) = old) ∧
    ((if b.truthy then b else old).truthy = false → old.truthy = false) := by
  by_cases hb : b.truthy = true <;> simp [hb]

/-- C8: `PUT /members/:id` changes only the fields supplied in the
patch: every field the body leaves absent (`undefined`) keeps its prior
value, and `_id`, `password` and `role` are never touched; in
particular a patch supplying only `membershipType` leaves `startDate`
and `endDate` unchanged. -/
theorem updateMember_frame (store : List MemberDoc) (id : String)
    (body : UpdateBody) (m : MemberDoc)
    (hm : findById store id = some m) :
    (updateMember store id body).2 =
      DirOutcome.ok (some (stripPassword (applyPatch body m))) ∧
    findById (updateMember store id body).1 id = some (applyPatch body m) ∧
    (applyPatch body m).id = m.id ∧
    (applyPatch body m).password = m.password ∧
    (applyPatch body m).role = m.role ∧
    (body.name = JsVal.undef → (applyPatch body m).name = m.name) ∧
    (body.email = JsVal.undef → (applyPatch body m).email = m.email) ∧
    (body.phone = JsVal.undef → (applyPatch body m).phone = m.phone) ∧
    (body.membershipType = JsVal.undef →
      (applyPatch body m).membershipType = m.membershipType) ∧
    (body.startDate = JsVal.undef →
      (applyPatch body m).startDate = m.startDate) ∧
    (body.endDate = JsVal.undef → (applyPatch body m).endDate = m.endDate) ∧
    (body.status = JsVal.undef → (applyPatch body m).status = m.status) := by
  have hpatch := findById_map_update store id (applyPatch body)
    (fun d => rfl) hm
  refine ⟨?_, ?_, rfl, rfl, rfl,
    fun h => (truthyPatch_frame body.name m.name).1 (by rw [h]; rfl),
    fun h => (truthyPatch_frame body.email m.email).1 (by rw [h]; rfl),
    fun h => (truthyPatch_frame body.phone m.phone).1 (by rw [h]; rfl),
    fun h => (truthyPatch_frame body.membershipType m.membershipType).1
      (by rw [h]; rfl),
    fun h => (truthyPatch_frame body.startDate m.startDate).1 (by rw [h]; rfl),
    fun h => (truthyPatch_frame body.endDate m.endDate).1 (by rw [h]; rfl),
    fun h => (truthyPatch_frame body.status m.status).1 (by rw [h]; rfl)⟩
  · simp only [updateMember, hm, hpatch]
  · simp only [updateMember, hm, hpatch]

/-- Witness for C8: patching only `membershipType` on a concrete store
returns the updated member and leaves the membership window alone. -/
theorem updateMember_frame_witness :
    (updateMember [sampleMember] "u1" patchYearly).2 =
      DirOutcome.ok (some (stripPassword (applyPatch patchYearly sampleMember))) ∧
    (applyPatch patchYearly sampleMember).startDate = sampleMember.startDate ∧
    (applyPatch patchYearly sampleMember).endDate = sampleMember.endDate := by
  have h := updateMember_frame [sampleMember] "u1" patchYearly sampleMember
    (by decide)
  exact ⟨h.1, h.2.2.2.2.2.2.2.2.2.1 rfl, h.2.2.2.2.2.2.2.2.2.2.1 rfl⟩

/-- C9: a successful delete removes every document with the id from
the store, and a second delete of the same id is a `NotFoundError`
that changes nothing — not a no-op success. -/
theorem deleteMember_not_idempotent (store : List MemberDoc) (id : String)
    (m : MemberDoc) (hm : findById store id = some m) :
    (deleteMember store id).2 = DirOutcome.ok none ∧
    (∀ d ∈ (deleteMember store id).1, d.id ≠ id) ∧
    findById (deleteMember store id).1 id = none ∧
    (deleteMember (deleteMember store id).1 id).2 = DirOutcome.notFoundErr ∧
    (deleteMember (deleteMember store id).1 id).1 =
      (deleteMember store id).1 := by
  have h1 : deleteMember store id =
      (store.filter (fun d => d.id ≠ id), DirOutcome.ok none) := by
    simp [deleteMember, hm]
  have h2 : findById (store.filter (fun d => d.id ≠ id)) id = none :=
    findById_filter_ne store id
  refine ⟨by rw [h1], ?_, ?_, ?_, ?_⟩
  · rw [h1]
    intro d hd
    have h3 := (List.mem_filter.mp hd).2
    simpa using h3
  · rw [h1]
    exact h2
  · rw [h1]
    simp only [deleteMember]
    rw [h2]
  · rw [h1]
    simp only [deleteMember]
    rw [h2]

/-- Witness for C9 at a concrete store. -/
theorem deleteMember_not_idempotent_witness :
    (deleteMember [sampleMember] "u1").2 = DirOutcome.ok none ∧
    (deleteMember (deleteMember [sampleMember] "u1").1 "u1").2 =
      DirOutcome.notFoundErr := by
  have h := deleteMember_not_idempotent [sampleMember] "u1" sampleMember
    (by decide)
  exact ⟨h.1, h.2.2.2.1⟩

/-- C10: a PUT field whose submitted value is falsy (empty string, 0,
`false`, `null` — or absent) is ignored: the prior value is retained,
so no settable field of a member can be cleared to an empty value
through the update operation. -/
theorem updateMember_falsy_ignored (store : List MemberDoc) (id : String)
    (body : UpdateBody) (m : MemberDoc)
    (hm : findById store id = some m) :
    findById (updateMember store id body).1 id = some (applyPatch body m) ∧
    (body.name.truthy = false → (applyPatch body m).name = m.name) ∧
    (body.email.truthy = false → (applyPatch body m).email = m.email) ∧
    (body.phone.truthy = false → (applyPatch body m).phone = m.phone) ∧
    (body.membershipType.truthy = false →
      (applyPatch body m).membershipType = m.membershipType) ∧
    (body.startDate.truthy = false →
      (applyPatch body m).startDate = m.startDate) ∧
    (body.endDate.truthy = false →
      (applyPatch body m).endDate = m.endDate) ∧
    (body.status.truthy = false → (applyPatch body m).status = m.status) ∧
    ((applyPatch body m).name.truthy = false → m.name.truthy = false) ∧
    ((applyPatch body m).email.truthy = false → m.email.truthy = false) ∧
    ((applyPatch body m).phone.truthy = false → m.phone.truthy = false) ∧
    ((applyPatch body m).membershipType.truthy = false →
      m.membershipType.truthy = false) ∧
    ((applyPatch body m).startDate.truthy = false →
      m.startDate.truthy = false) ∧
    ((applyPatch body m).endDate.truthy = false →
      m.endDate.truthy = false) ∧
    ((applyPatch body m).status.truthy = false →
      m.status.truthy = false) := by
  have hpatch := findById_map_update store id (applyPatch body)
    (fun d => rfl) hm
  refine ⟨by simp only [updateMember, hm, hpatch],
    (truthyPatch_frame body.name m.name).1,
    (truthyPatch_frame body.email m.email).1,
    (truthyPatch_frame body.phone m.phone).1,
    (truthyPatch_frame body.membershipType m.membershipType).1,
    (truthyPatch_frame body.startDate m.startDate).1,
    (truthyPatch_frame body.endDate m.endDate).1,
    (truthyPatch_frame body.status m.status).1,
    (truthyPatch_frame body.name m.name).2,
    (truthyPatch_frame body.email m.email).2,
    (truthyPatch_frame body.phone m.phone).2,
    (truthyPatch_frame body.membershipType m.membershipType).2,
    (truthyPatch_frame body.startDate m.startDate).2,
    (truthyPatch_frame body.endDate m.endDate).2,
    (truthyPatch_frame body.status m.status).2⟩

/-- Witness for C10: a patch supplying an empty name, a `null` email,
a zero phone and a `false` status leaves all four fields as they were. -/
theorem updateMember_falsy_ignored_witness :
    (applyPatch falsyPatch sampleMember).name = sampleMember.name ∧
    (applyPatch falsyPatch sampleMember).email = sampleMember.email ∧
    (applyPatch falsyPatch sampleMember).phone = sampleMember.phone ∧
    (applyPatch falsyPatch sampleMember).status = sampleMember.status := by
  have h := updateMember_falsy_ignored [sampleMember] "u1" falsyPatch
    sampleMember (by decide)
  exact ⟨h.2.1 rfl, h.2.2.1 rfl, h.2.2.2.1 rfl, h.2.2.2.2.2.2.2.1 rfl⟩

/-- When no stored user carries the id, the
`findByIdAndUpdate` is a no-op on the user collection. -/
theorem applyMembership_absent (uid mem : String) (s e : JsDate) :
    ∀ store : List MemberDoc, (∀ u ∈ store, u.id ≠ uid) →
      applyMembership uid mem s e store = store := by
  intro store
  induction store with
  | nil => intro _; rfl
  | cons a l ih =>
      intro h
      have ha : a.id ≠ uid := h a (by simp)
      have ht := ih (fun u hu => h u (by simp [hu]))
      simp only [applyMembership, List.map_cons] at ht ⊢
      rw [if_neg ha, ht]

/-- C1 (code-bug evidence): the verify handler has no signature-check
path.  Even with a fabricated signature no processor would confirm, it
reports success, persists a `completed` Payment, and rewrites the
member — contradicting the required `GatewayVerificationError`
behavior and the source comment of the handler itself. -/
theorem verifyPayment_ignores_signature :
    (verifyPayment ⟨[sampleMember], []⟩ "u1" badSigBody sampleNow).2 =
      VerifyOutcome.success ∧
    (verifyPayment ⟨[sampleMember], []⟩ "u1" badSigBody sampleNow).2 ≠
      VerifyOutcome.gatewayVerificationErr ∧
    (verifyPayment ⟨[sampleMember], []⟩ "u1" badSigBody
        sampleNow).1.payments.map (fun p => p.status) = ["completed"] ∧
    findById (verifyPayment ⟨[sampleMember], []⟩ "u1" badSigBody
        sampleNow).1.users "u1" ≠ some sampleMember := by
  refine ⟨rfl, by decide, rfl, ?_⟩
  intro hcontra
  have h1 := congrArg (fun r => Option.map (fun d => d.membershipType) r) hcontra
  simp only [verifyPayment, applyMembership, findById] at h1
  revert h1
  decide

/-- C2 (counterexample): called with a memberId that resolves to no
user, the verify handler does not fail with `NotFoundError`, and it
does perform a persistence write (a Payment record is created). -/
theorem verifyPayment_unknown_member_counterexample :
    (verifyPayment ⟨[], []⟩ "ghost" badSigBody sampleNow).2 ≠
      VerifyOutcome.notFoundErr ∧
    (verifyPayment ⟨[], []⟩ "ghost" badSigBody sampleNow).1.payments ≠ [] := by
  constructor
  · decide
  · intro h
    have := congrArg List.length h
    simp [verifyPayment] at this

/-- C2 (amended): for a memberId that resolves to no user, the verify
handler succeeds anyway: it persists a `completed` Payment referencing
the unknown id while the user collection is left unchanged (the member
update is a silent no-op). -/
theorem verifyPayment_unknown_member (st : PayState) (uid : String)
    (body : VerifyBody) (now : JsDate)
    (habs : ∀ u ∈ st.users, u.id ≠ uid) :
    (verifyPayment st uid body now).2 = VerifyOutcome.success ∧
    (verifyPayment st uid body now).1.users = st.users ∧
    ∃ p, (verifyPayment st uid body now).1.payments = st.payments ++ [p] ∧
      p.userId = uid ∧ p.status = "completed" := by
  refine ⟨rfl, ?_, _, rfl, rfl, rfl⟩
  show applyMembership uid body.membership now
    (planEndDate body.membership now) st.users = st.users
  exact applyMembership_absent uid body.membership now
    (planEndDate body.membership now) st.users habs

/-- Witness for the amended C2 at the empty store. -/
theorem verifyPayment_unknown_member_witness :
    (verifyPayment ⟨[], []⟩ "ghost" badSigBody sampleNow).2 =
      VerifyOutcome.success ∧
    (verifyPayment ⟨[], []⟩ "ghost" badSigBody sampleNow).1.users = [] := by
  have h := verifyPayment_unknown_member ⟨[], []⟩ "ghost" badSigBody sampleNow
    (by simp)
  exact ⟨h.1, h.2.1⟩

/-- C3: a successful verify with plan yearly for an existing member
leaves the member with membershipType yearly, status active,
startDate the current moment and endDate one calendar year later, and
appends a `completed` Payment carrying the same window. -/
theorem verifyPayment_yearly (st : PayState) (uid : String)
    (body : VerifyBody) (now : JsDate) (m : MemberDoc)
    (hplan : body.membership = "yearly")
    (hm : findById st.users uid = some m) :
    (verifyPayment st uid body now).2 = VerifyOutcome.success ∧
    (∃ m', findById (verifyPayment st uid body now).1.users uid = some m' ∧
      m'.membershipType = JsVal.vstr "yearly" ∧
      m'.status = JsVal.vstr "active" ∧
      m'.startDate = JsDate.toVal now ∧
      m'.endDate = JsDate.toVal (JsDate.addYears 1 now)) ∧
    (∃ p, (verifyPayment st uid body now).1.payments = st.payments ++ [p] ∧
      p.status = "completed" ∧
      p.userId = uid ∧
      p.startDate = now ∧
      p.endDate = JsDate.addYears 1 now) := by
  have hend : planEndDate body.membership now = JsDate.addYears 1 now := by
    rw [hplan]
    simp [planEndDate]
  have hupd := findById_map_update st.users uid
    (fun d =>
      { d with
        membershipType := JsVal.vstr body.membership
        startDate := (now : JsDate).toVal
        endDate := (planEndDate body.membership now).toVal
        status := JsVal.vstr "active" })
    (fun d => rfl) hm
  refine ⟨rfl, ⟨_, hupd, by rw [hplan], rfl, rfl, by rw [hend]⟩,
    _, rfl, rfl, rfl, rfl, ?_⟩
  show planEndDate body.membership now = JsDate.addYears 1 now
  exact hend

/-- Witness for C3: a concrete member store and a yearly verify at
Feb 29, 2024 (whose end date rolls to Mar 1, 2025). -/
theorem verifyPayment_yearly_witness :
    (verifyPayment ⟨[sampleMember], []⟩ "u1" badSigBody sampleNow).2 =
      VerifyOutcome.success ∧
    ∃ m', findById (verifyPayment ⟨[sampleMember], []⟩ "u1" badSigBody
        sampleNow).1.users "u1" = some m' ∧
      m'.membershipType = JsVal.vstr "yearly" := by
  have h := verifyPayment_yearly ⟨[sampleMember], []⟩ "u1" badSigBody
    sampleNow sampleMember rfl (by decide)
  obtain ⟨h1, ⟨m', hfind, htype, -, -, -⟩, -⟩ := h
  exact ⟨h1, m', hfind, htype⟩

end Gym
